import Mathlib

/-!
Shallow embedding of the measurement-tracking core of the repository:
the MeasurementContext store (addMeasurement, getMeasurementById,
getLatestMeasurement, useMeasurements) and the DataEntry page's
validateForm / handleSubmit flow.

Numbers are modelled as rationals (the relevant JavaScript comparisons on
the literals appearing in the claims are exact), dates as integers
(millisecond timestamps, as produced by Date.getTime), and possibly-absent
form fields as Option values.  JavaScript truthiness of a numeric field is
modelled by `truthy`: absent or zero is falsy.
-/

/-- One body-composition measurement record, as constructed in DataEntry.
`metabolicAge` is the one field the source passes through without a
default, so it stays optional in the record. -/
structure Measurement where
  id : String
  userId : String
  date : Int
  weight : ℚ
  bodyFatMass : ℚ
  bodyFatPercentage : ℚ
  skeletalMuscleMass : ℚ
  bmi : ℚ
  pbf : ℚ
  visceralFat : ℚ
  waterPercentage : ℚ
  basalMetabolicRate : ℚ
  metabolicAge : Option ℚ
deriving DecidableEq, Repr

/-- The user profile record; DataEntry reads `id` and `height`. -/
structure User where
  id : String
  name : String
  age : ℚ
  gender : String
  height : ℚ
  email : Option String
deriving DecidableEq, Repr

/-- The store state held by MeasurementProvider: the measurements array. -/
structure MeasurementContextType where
  measurements : List Measurement
deriving DecidableEq, Repr

/-- Source: `setMeasurements((prev) => [...prev, measurement])` — append. -/
def addMeasurement (ms : List Measurement) (m : Measurement) : List Measurement :=
  ms ++ [m]

/-- Source: `measurements.find((m) => m.id === id)` — first match or absent. -/
def getMeasurementById (ms : List Measurement) (i : String) : Option Measurement :=
  ms.find? (fun m => m.id == i)

/-- The total preorder induced by the comparator
`(a, b) => new Date(b.date).getTime() - new Date(a.date).getTime()`:
`a` sorts weakly before `b` exactly when the comparator is nonpositive,
i.e. when `b.date ≤ a.date` (descending by date). -/
def dateGe (a b : Measurement) : Prop := b.date ≤ a.date

instance : DecidableRel dateGe :=
  fun a b => inferInstanceAs (Decidable (b.date ≤ a.date))

instance : IsTotal Measurement dateGe :=
  ⟨fun a b => le_total b.date a.date⟩

instance : IsTrans Measurement dateGe :=
  ⟨fun _ _ _ hab hbc => le_trans hbc hab⟩

/-- The stable descending-by-date sort performed on the spread copy
`[...measurements]`.  ECMAScript requires `Array.prototype.sort` to be
stable, and a stable sort's output is determined by the comparator's
preorder, so a stable insertion sort with the same preorder is a faithful
model. -/
def sortByDateDesc (ms : List Measurement) : List Measurement :=
  List.insertionSort dateGe ms

/-- Source: returns undefined on the empty collection, otherwise element 0
of the sorted copy. -/
def getLatestMeasurement (ms : List Measurement) : Option Measurement :=
  if ms.length = 0 then none
  else (sortByDateDesc ms).head?

/-- State-passing form of `getLatestMeasurement`: the second component is
the backing `measurements` array after the call.  The source sorts the
spread copy `[...measurements]`, never the array itself, and calls no
state setter, so the backing array is returned unchanged. -/
def getLatestMeasurementS (ms : List Measurement) :
    Option Measurement × List Measurement :=
  if ms.length = 0 then (none, ms)
  else
    let copy := ms
    ((List.insertionSort dateGe copy).head?, ms)

/-- The operations the store exposes; `add` is the only mutator, the three
read operations leave the state as they found it. -/
inductive StoreOp where
  | add (m : Measurement)
  | getById (i : String)
  | getLatest
  | listAll

/-- State transition of one store operation. -/
def applyOp (ms : List Measurement) : StoreOp → List Measurement
  | .add m => addMeasurement ms m
  | .getById _ => ms
  | .getLatest => (getLatestMeasurementS ms).2
  | .listAll => ms

/-- The numeric form fields of DataEntry (`Partial<Measurement>`); a field
is `none` when absent from the form input. -/
structure FormData where
  weight : Option ℚ
  bodyFatPercentage : Option ℚ
  skeletalMuscleMass : Option ℚ
  visceralFat : Option ℚ
  waterPercentage : Option ℚ
  basalMetabolicRate : Option ℚ
  metabolicAge : Option ℚ
deriving DecidableEq, Repr

/-- JavaScript truthiness of a possibly-absent number: undefined and 0 are
falsy. -/
def truthy : Option ℚ → Bool
  | none => false
  | some x => decide (x ≠ 0)

/-- JavaScript comparison `x <= c` where `x` may be undefined (false then). -/
def jsLe (x : Option ℚ) (c : ℚ) : Bool :=
  match x with
  | none => false
  | some v => decide (v ≤ c)

/-- JavaScript comparison `x < c` where `x` may be undefined (false then). -/
def jsLt (x : Option ℚ) (c : ℚ) : Bool :=
  match x with
  | none => false
  | some v => decide (v < c)

/-- JavaScript comparison `x > c` where `x` may be undefined (false then). -/
def jsGt (x : Option ℚ) (c : ℚ) : Bool :=
  match x with
  | none => false
  | some v => decide (c < v)

/-- JavaScript `x || 0`: 0 when `x` is absent or zero, else the value. -/
def jsOrZero (x : Option ℚ) : ℚ :=
  match x with
  | none => 0
  | some v => if v = 0 then 0 else v

/-- The `newErrors` mapping built by `validateForm`; only these four keys
are ever assigned. -/
structure FormErrors where
  weight : Option String
  bodyFatPercentage : Option String
  skeletalMuscleMass : Option String
  waterPercentage : Option String
deriving DecidableEq, Repr

/-- The five checks of `validateForm` in source order, each assigning one
key of the fresh `newErrors` record.  Note the required-field checks use
JavaScript truthiness (`!formData.weight` etc.), so a present value of 0
trips them. -/
def validateForm (f : FormData) : FormErrors :=
  let e0 : FormErrors := ⟨none, none, none, none⟩
  let e1 := if (!truthy f.weight) || jsLe f.weight 0 then
    { e0 with weight := some "Weight is required and must be greater than 0" }
    else e0
  let e2 := if (!truthy f.bodyFatPercentage) || jsLt f.bodyFatPercentage 0 then
    { e1 with bodyFatPercentage := some "Body fat percentage is required and must be non-negative" }
    else e1
  let e3 := if (!truthy f.skeletalMuscleMass) || jsLe f.skeletalMuscleMass 0 then
    { e2 with skeletalMuscleMass := some "Skeletal muscle mass is required and must be greater than 0" }
    else e2
  let e4 := if truthy f.bodyFatPercentage &&
      (jsLt f.bodyFatPercentage 0 || jsGt f.bodyFatPercentage 100) then
    { e3 with bodyFatPercentage := some "Body fat percentage must be between 0 and 100" }
    else e3
  let e5 := if truthy f.waterPercentage &&
      (jsLt f.waterPercentage 0 || jsGt f.waterPercentage 100) then
    { e4 with waterPercentage := some "Water percentage must be between 0 and 100" }
    else e4
  e5

/-- `Object.keys(newErrors).length === 0`: no key was assigned. -/
def FormErrors.noKeys (e : FormErrors) : Bool :=
  e.weight.isNone && e.bodyFatPercentage.isNone &&
    e.skeletalMuscleMass.isNone && e.waterPercentage.isNone

/-- The boolean `validateForm` returns to `handleSubmit`. -/
def validateFormOk (f : FormData) : Bool :=
  (validateForm f).noKeys

/-- Modelled from the spec: `calculateBMI` lives in
`src/utils/healthCalculations`, which is not among the provided sources.
The spec fixes only its contract — weight in kilograms and height in
centimeters give a dimensionless BMI — so the standard formula
weight / (height in meters)² is used.  No claim depends on its value. -/
def calculateBMI (weight height : ℚ) : ℚ :=
  weight / ((height / 100) * (height / 100))

/-- The `newMeasurement` record literal of `handleSubmit`.  The non-null
assertions `formData.weight!` etc. are modelled by `Option.getD 0`;
on the path where this is built, validation has passed, so those fields
are present.  `visceralFat`, `waterPercentage` and `basalMetabolicRate`
go through `|| 0`; `metabolicAge` is passed through as-is. -/
def buildMeasurement (f : FormData) (u : User) (newId : String)
    (now : Int) : Measurement :=
  let bmi := calculateBMI (f.weight.getD 0) u.height
  let bodyFatMass := f.weight.getD 0 * (f.bodyFatPercentage.getD 0 / 100)
  { id := newId
    userId := u.id
    date := now
    weight := f.weight.getD 0
    bodyFatMass := bodyFatMass
    bodyFatPercentage := f.bodyFatPercentage.getD 0
    skeletalMuscleMass := f.skeletalMuscleMass.getD 0
    bmi := bmi
    pbf := f.bodyFatPercentage.getD 0
    visceralFat := jsOrZero f.visceralFat
    waterPercentage := jsOrZero f.waterPercentage
    basalMetabolicRate := jsOrZero f.basalMetabolicRate
    metabolicAge := f.metabolicAge }

/-- `handleSubmit` as a transition on the store state: if validation
fails it returns before touching the store; otherwise it constructs the
measurement and appends it via `addMeasurement`.  `newId` stands for the
uuid collaborator's output and `now` for `new Date()`. -/
def handleSubmit (f : FormData) (u : User) (newId : String) (now : Int)
    (ms : List Measurement) : List Measurement :=
  if validateFormOk f then addMeasurement ms (buildMeasurement f u newId now)
  else ms

/-- Source: `useMeasurements` throws
`useMeasurements must be used within a MeasurementProvider` when the
context is undefined, otherwise returns the context value. -/
def useMeasurements (context : Option MeasurementContextType) :
    Except String MeasurementContextType :=
  match context with
  | none => Except.error "useMeasurements must be used within a MeasurementProvider"
  | some c => Except.ok c

/-- A concrete measurement used to instantiate theorems on sample data. -/
def sampleMeasurement (i : String) (d : Int) (w : ℚ) : Measurement :=
  { id := i
    userId := "user-1"
    date := d
    weight := w
    bodyFatMass := 16
    bodyFatPercentage := 20
    skeletalMuscleMass := 30
    bmi := 24
    pbf := 20
    visceralFat := 5
    waterPercentage := 55
    basalMetabolicRate := 1500
    metabolicAge := none }

/-- A concrete user profile used to instantiate theorems. -/
def sampleUser : User :=
  { id := "user-1"
    name := "Alex"
    age := 30
    gender := "other"
    height := 170
    email := none }

lemma getLatestMeasurementS_state (ms : List Measurement) :
    (getLatestMeasurementS ms).2 = ms := by
  unfold getLatestMeasurementS
  split <;> rfl

/-- C9: reading the store accessor with no provider in scope halts with the
descriptive error message instead of yielding a default; with the context
initialized it returns the context value unchanged. -/
theorem claim9_useMeasurements_guard :
    useMeasurements none =
      Except.error "useMeasurements must be used within a MeasurementProvider"
    ∧ ∀ c : MeasurementContextType, useMeasurements (some c) = Except.ok c :=
  ⟨rfl, fun _ => rfl⟩

/-- C10: getLatestMeasurement is a pure query — it sorts a copy, so the
backing measurement list after the call is the list before the call, and
the returned value agrees with the pure function. -/
theorem claim10_getLatest_pure (ms : List Measurement) :
    (getLatestMeasurementS ms).2 = ms
    ∧ (getLatestMeasurementS ms).1 = getLatestMeasurement ms := by
  refine ⟨getLatestMeasurementS_state ms, ?_⟩
  unfold getLatestMeasurementS getLatestMeasurement sortByDateDesc
  split <;> rfl

/-- C6: addMeasurement appends — the length grows by exactly one, the old
elements keep their positions and order, the new element is at the last
position — and no store operation ever shrinks the list. -/
theorem claim6_append_only (ms : List Measurement) (m : Measurement) :
    (addMeasurement ms m).length = ms.length + 1
    ∧ (addMeasurement ms m).take ms.length = ms
    ∧ (addMeasurement ms m).drop ms.length = [m]
    ∧ ∀ op : StoreOp, ms.length ≤ (applyOp ms op).length := by
  refine ⟨by simp [addMeasurement], ?_, ?_, ?_⟩
  · exact List.take_left ms [m]
  · exact List.drop_left ms [m]
  · intro op
    cases op with
    | add m => simp [applyOp, addMeasurement]
    | getById i => simp [applyOp]
    | getLatest => simp [applyOp, getLatestMeasurementS_state]
    | listAll => simp [applyOp]

/-- C5 counterexample: with a duplicate id already in the store, the
lookup after addMeasurement returns the earlier record, not the added
one, so the claim fails for that store state. -/
theorem claim5_duplicate_id_counterexample :
    getMeasurementById
        (addMeasurement [sampleMeasurement "dup" 1 70] (sampleMeasurement "dup" 2 80))
        (sampleMeasurement "dup" 2 80).id
      = some (sampleMeasurement "dup" 1 70)
    ∧ sampleMeasurement "dup" 1 70 ≠ sampleMeasurement "dup" 2 80 := by
  decide

/-- C5 amended: when no measurement already in the store carries the id of
m — in particular whenever the id generator is fresh — the lookup after
addMeasurement(m) returns m. -/
theorem claim5_add_then_lookup_fresh_id (ms : List Measurement) (m : Measurement)
    (hfresh : ∀ x ∈ ms, x.id ≠ m.id) :
    getMeasurementById (addMeasurement ms m) m.id = some m := by
  show (ms ++ [m]).find? (fun x => x.id == m.id) = some m
  rw [List.find?_eq_some]
  refine ⟨by simp, ms, [], rfl, ?_⟩
  intro a ha
  simp [hfresh a ha]

theorem claim5_add_then_lookup_fresh_id_witness :
    getMeasurementById
        (addMeasurement [sampleMeasurement "a" 1 70] (sampleMeasurement "b" 2 80))
        (sampleMeasurement "b" 2 80).id
      = some (sampleMeasurement "b" 2 80) :=
  claim5_add_then_lookup_fresh_id [sampleMeasurement "a" 1 70]
    (sampleMeasurement "b" 2 80) (by decide)

/-- C7: getMeasurementById returns absent exactly when no element matches,
and when it returns a record that record matches the id and is the first
match in insertion order (everything before it does not match), duplicate
ids included. -/
theorem claim7_find_first_match (ms : List Measurement) (i : String) :
    (getMeasurementById ms i = none ↔ ∀ m ∈ ms, m.id ≠ i)
    ∧ ∀ m, getMeasurementById ms i = some m →
        m.id = i ∧ ∃ l r, ms = l ++ m :: r ∧ ∀ y ∈ l, y.id ≠ i := by
  constructor
  · simp [getMeasurementById, List.find?_eq_none]
  · intro m hm
    rw [show getMeasurementById ms i = ms.find? (fun x => x.id == i) from rfl,
      List.find?_eq_some] at hm
    obtain ⟨hp, l, r, hsplit, hl⟩ := hm
    refine ⟨by simpa using hp, l, r, hsplit, ?_⟩
    intro y hy
    simpa using hl y hy

theorem claim7_find_first_match_witness :
    (sampleMeasurement "dup" 1 70).id = "dup"
    ∧ ∃ l r, [sampleMeasurement "dup" 1 70, sampleMeasurement "dup" 2 80]
        = l ++ (sampleMeasurement "dup" 1 70) :: r ∧ ∀ y ∈ l, y.id ≠ "dup" :=
  (claim7_find_first_match
      [sampleMeasurement "dup" 1 70, sampleMeasurement "dup" 2 80] "dup").2
    (sampleMeasurement "dup" 1 70) (by decide)

lemma sortByDateDesc_perm (ms : List Measurement) :
    (sortByDateDesc ms).Perm ms :=
  List.perm_insertionSort dateGe ms

lemma sortByDateDesc_sorted (ms : List Measurement) :
    List.Sorted dateGe (sortByDateDesc ms) :=
  List.sorted_insertionSort dateGe ms

/-- C3: on the empty collection getLatestMeasurement is absent; on a
non-empty collection it returns an element of the collection whose date
is greater than or equal to every element's date. -/
theorem claim3_getLatestMeasurement_max (ms : List Measurement) :
    (ms = [] → getLatestMeasurement ms = none)
    ∧ (ms ≠ [] → ∃ m, getLatestMeasurement ms = some m ∧ m ∈ ms ∧
        ∀ x ∈ ms, x.date ≤ m.date) := by
  constructor
  · intro h; subst h; rfl
  · intro h
    have hs : sortByDateDesc ms ≠ [] := by
      intro hnil
      have hzero : ms.length = 0 := by
        rw [← (sortByDateDesc_perm ms).length_eq, hnil]
        rfl
      exact h (List.length_eq_zero.mp hzero)
    obtain ⟨b, t, hbt⟩ := List.exists_cons_of_ne_nil hs
    have hlen : ¬ ms.length = 0 := by
      simpa [List.length_eq_zero] using h
    refine ⟨b, ?_, ?_, ?_⟩
    · simp [getLatestMeasurement, hlen, hbt]
    · exact (sortByDateDesc_perm ms).mem_iff.mp (hbt ▸ List.mem_cons_self b t)
    · intro x hx
      have hx2 : x ∈ b :: t := hbt ▸ (sortByDateDesc_perm ms).mem_iff.mpr hx
      rcases List.mem_cons.mp hx2 with rfl | hx3
      · exact le_refl x.date
      · have hsorted := hbt ▸ sortByDateDesc_sorted ms
        exact List.rel_of_sorted_cons hsorted x hx3

lemma sortByDateDesc_append_tie (s : List Measurement) (A B : Measurement)
    (hAB : B.date ≤ A.date) (hmax : ∀ x ∈ s, x.date < A.date) :
    ∃ t, sortByDateDesc (s ++ [A, B]) = A :: t := by
  induction s with
  | nil =>
      refine ⟨[B], ?_⟩
      simp [sortByDateDesc, List.insertionSort, List.orderedInsert, dateGe, hAB]
  | cons c s ih =>
      obtain ⟨t, ht⟩ := ih (fun x hx => hmax x (List.mem_cons_of_mem c hx))
      have hc : ¬ dateGe c A := by
        have hlt := hmax c (List.mem_cons_self c s)
        simp only [dateGe, not_le]
        exact hlt
      refine ⟨List.orderedInsert dateGe c t, ?_⟩
      have hstep : sortByDateDesc ((c :: s) ++ [A, B])
          = List.orderedInsert dateGe c (sortByDateDesc (s ++ [A, B])) := rfl
      rw [hstep, ht]
      simp [List.orderedInsert, hc]

/-- C4: when the maximal date is shared by A and B, inserted in that
order after measurements of strictly smaller date, getLatestMeasurement
returns A, the earlier-inserted of the tied pair; the embedded function
is pure, so repeated calls on unchanged state trivially agree. -/
theorem claim4_tie_break_first_inserted (s : List Measurement) (A B : Measurement)
    (hdate : A.date = B.date) (hmax : ∀ x ∈ s, x.date < A.date) :
    getLatestMeasurement (s ++ [A, B]) = some A := by
  obtain ⟨t, ht⟩ := sortByDateDesc_append_tie s A B (le_of_eq hdate.symm) hmax
  have hlen : ¬ (s ++ [A, B]).length = 0 := by simp
  simp [getLatestMeasurement, hlen, ht]

theorem claim4_tie_break_first_inserted_witness :
    getLatestMeasurement
        ([sampleMeasurement "c" 0 60] ++ [sampleMeasurement "a" 5 70, sampleMeasurement "b" 5 80])
      = some (sampleMeasurement "a" 5 70) :=
  claim4_tie_break_first_inserted [sampleMeasurement "c" 0 60]
    (sampleMeasurement "a" 5 70) (sampleMeasurement "b" 5 80)
    (by decide) (by decide)

theorem claim3_getLatestMeasurement_max_witness :
    ∃ m, getLatestMeasurement [sampleMeasurement "a" 1 70, sampleMeasurement "b" 2 80]
        = some m
      ∧ m ∈ [sampleMeasurement "a" 1 70, sampleMeasurement "b" 2 80]
      ∧ ∀ x ∈ [sampleMeasurement "a" 1 70, sampleMeasurement "b" 2 80], x.date ≤ m.date :=
  (claim3_getLatestMeasurement_max
      [sampleMeasurement "a" 1 70, sampleMeasurement "b" 2 80]).2 (by decide)

lemma validateForm_weight_char (f : FormData) :
    (validateForm f).weight =
      if (!truthy f.weight) || jsLe f.weight 0
      then some "Weight is required and must be greater than 0" else none := by
  simp only [validateForm]
  split <;> split <;> split <;> split <;> split <;> rfl

lemma validateForm_bodyFat_char (f : FormData) :
    (validateForm f).bodyFatPercentage =
      if truthy f.bodyFatPercentage &&
          (jsLt f.bodyFatPercentage 0 || jsGt f.bodyFatPercentage 100)
      then some "Body fat percentage must be between 0 and 100"
      else if (!truthy f.bodyFatPercentage) || jsLt f.bodyFatPercentage 0
      then some "Body fat percentage is required and must be non-negative"
      else none := by
  simp only [validateForm]
  split <;> split <;> split <;> split <;> split <;> rfl

/-- The boundary submission of the spec: weight 0.1, bodyFatPercentage 0,
skeletalMuscleMass 0.1, all optional fields absent. -/
def boundaryForm : FormData :=
  ⟨some (mkRat 1 10), some 0, some (mkRat 1 10), none, none, none, none⟩

/-- A submission with weight 0 and the other required fields valid. -/
def weightZeroForm : FormData :=
  ⟨some 0, some 20, some 30, none, none, none, none⟩

/-- A submission with bodyFatPercentage 150 and the other required fields
valid. -/
def bodyFat150Form : FormData :=
  ⟨some 70, some 150, some 30, none, none, none, none⟩

/-- A valid submission with every optional field absent. -/
def validFormNoOpt : FormData :=
  ⟨some 80, some 20, some 35, none, none, none, none⟩

/-- C1: the code rejects the boundary submission the spec says is
accepted.  Because `!formData.bodyFatPercentage` treats the present value
0 as falsy, the required-field check records an error on
bodyFatPercentage — contradicting the check's own message, which allows
any non-negative value — validation fails, and handleSubmit returns
without calling addMeasurement. -/
theorem claim1_boundary_bodyFat_zero_rejected :
    (validateForm boundaryForm).bodyFatPercentage
      = some "Body fat percentage is required and must be non-negative"
    ∧ validateFormOk boundaryForm = false
    ∧ handleSubmit boundaryForm sampleUser "m-new" 100 [] = [] := by
  refine ⟨?_, ?_, ?_⟩ <;> decide

/-- C2 counterexample: a validated submission with metabolicAge absent
produces a record whose metabolicAge is absent, not 0. -/
theorem claim2_metabolicAge_absent_counterexample :
    validateFormOk validFormNoOpt = true
    ∧ (buildMeasurement validFormNoOpt sampleUser "m-1" 5).metabolicAge = none
    ∧ (buildMeasurement validFormNoOpt sampleUser "m-1" 5).metabolicAge ≠ some 0 := by
  refine ⟨by decide, rfl, by decide⟩

/-- C2 amended: for every submission that passes validation, each of the
optional fields visceralFat, waterPercentage and basalMetabolicRate that
was absent from the form input is set to 0 in the constructed record,
while an absent metabolicAge is left absent; the record is appended to
the store.  Each field's statement is independent of whether the other
optional fields are present. -/
theorem claim2_optional_field_defaults (f : FormData) (u : User) (i : String)
    (d : Int) (ms : List Measurement)
    (hok : validateFormOk f = true) :
    handleSubmit f u i d ms = ms ++ [buildMeasurement f u i d]
    ∧ (f.visceralFat = none → (buildMeasurement f u i d).visceralFat = 0)
    ∧ (f.waterPercentage = none → (buildMeasurement f u i d).waterPercentage = 0)
    ∧ (f.basalMetabolicRate = none →
        (buildMeasurement f u i d).basalMetabolicRate = 0)
    ∧ (f.metabolicAge = none → (buildMeasurement f u i d).metabolicAge = none) := by
  refine ⟨by simp [handleSubmit, hok, addMeasurement], ?_, ?_, ?_, ?_⟩ <;>
    intro h <;> simp [buildMeasurement, jsOrZero, h]

theorem claim2_optional_field_defaults_witness :
    handleSubmit validFormNoOpt sampleUser "m-1" 5 []
        = [] ++ [buildMeasurement validFormNoOpt sampleUser "m-1" 5]
    ∧ (buildMeasurement validFormNoOpt sampleUser "m-1" 5).visceralFat = 0
    ∧ (buildMeasurement validFormNoOpt sampleUser "m-1" 5).waterPercentage = 0
    ∧ (buildMeasurement validFormNoOpt sampleUser "m-1" 5).basalMetabolicRate = 0
    ∧ (buildMeasurement validFormNoOpt sampleUser "m-1" 5).metabolicAge = none :=
  have h := claim2_optional_field_defaults validFormNoOpt sampleUser "m-1" 5 []
    (by decide)
  ⟨h.1, h.2.1 rfl, h.2.2.1 rfl, h.2.2.2.1 rfl, h.2.2.2.2 rfl⟩

/-- C8: a weight of 0 puts an error on the weight field, a
bodyFatPercentage of 150 puts the out-of-range error on that field, and
whenever validation fails handleSubmit returns with the store state
untouched. -/
theorem claim8_validation_atomicity :
    (∀ f : FormData, f.weight = some 0 →
        (validateForm f).weight = some "Weight is required and must be greater than 0")
    ∧ (∀ f : FormData, f.bodyFatPercentage = some 150 →
        (validateForm f).bodyFatPercentage
          = some "Body fat percentage must be between 0 and 100")
    ∧ (∀ (f : FormData) (u : User) (i : String) (d : Int) (ms : List Measurement),
        validateFormOk f = false → handleSubmit f u i d ms = ms) := by
  refine ⟨?_, ?_, ?_⟩
  · intro f h
    rw [validateForm_weight_char, h]
    decide
  · intro f h
    rw [validateForm_bodyFat_char, h]
    decide
  · intro f u i d ms h
    simp [handleSubmit, h]

theorem claim8_validation_atomicity_witness :
    (validateForm weightZeroForm).weight
        = some "Weight is required and must be greater than 0"
    ∧ (validateForm bodyFat150Form).bodyFatPercentage
        = some "Body fat percentage must be between 0 and 100"
    ∧ handleSubmit weightZeroForm sampleUser "id-1" 0 [] = [] :=
  ⟨claim8_validation_atomicity.1 weightZeroForm rfl,
   claim8_validation_atomicity.2.1 bodyFat150Form rfl,
   claim8_validation_atomicity.2.2 weightZeroForm sampleUser "id-1" 0 [] (by decide)⟩
